import Mathlib

/-!
Verification development for the pydeployer deployment orchestrator.

The definitions below are a shallow embedding of the Python source:
  - `src/core/models.py` (Deployment/Service/Project data model, the
    `EncryptedJSONField` conversions, `Project.get_next_available_port`,
    `Deployment.save`),
  - `src/deployer/executor.py` (`DeploymentExecutor.deploy`,
    `DeploymentExecutor.rollback`, `_handle_deployment_failure`,
    `_load_deployment_config`, `_prepare_environment_variables`,
    `_perform_health_checks`),
  - `src/api/views.py` (`DeploymentViewSet.deploy` admission check),
  - `src/deployer/tasks.py` (`process_deployment`).

Database rows are modelled as lists of records; each Django ORM write
(`save` / `update` / `create`) becomes an explicit state transformation.
External effects (git, filesystem, subprocesses, HTTP probes, decryption)
are abstracted as oracle parameters returning `Except`/`Option` values,
mirroring exactly where the Python code can raise.
-/

/-- Deployment status values, from `Deployment.STATUS_CHOICES` in
`core/models.py` plus the `inactive` status written by the executor. -/
inductive Status where
  | pending
  | cloning
  | building
  | deploying
  | testing
  | active
  | failed
  | rolled_back
  | inactive
  deriving DecidableEq

/-- One row of the `deployer_deployments` table (fields used by the claims). -/
structure Deployment where
  rid : Nat
  deployedAt : Nat
  status : Status
  completedAt : Option Nat
  errorMessage : String
  rollbackFrom : Option Nat
  deriving DecidableEq

/-- All deployment rows of one Environment (`environment.deployments`). -/
abbrev DB := List Deployment

/-- `environment.deployments.filter(status='active')`. -/
def activeDeployments (db : DB) : List Deployment :=
  db.filter (fun r => decide (r.status = Status.active))

/-- `.first()` under the model ordering `['-deployed_at']`: the element with
the largest `deployed_at` (leftmost on ties). -/
def firstByDeployedAt : List Deployment → Option Deployment
  | [] => none
  | r :: rs =>
    match firstByDeployedAt rs with
    | none => some r
    | some b => if b.deployedAt > r.deployedAt then some b else some r

/-- `environment.deployments.filter(status='active').first()` in
`DeploymentExecutor.rollback`. -/
def firstActive (db : DB) : Option Deployment :=
  firstByDeployedAt (activeDeployments db)

/-- `.order_by('-completed_at').first()`: the element with the largest
`completed_at` (leftmost on ties). -/
def firstByCompletedAt : List Deployment → Option Deployment
  | [] => none
  | r :: rs =>
    match firstByCompletedAt rs with
    | none => some r
    | some b => if b.completedAt.getD 0 > r.completedAt.getD 0 then some b else some r

/-- `environment.deployments.filter(status='inactive',
completed_at__isnull=False).order_by('-completed_at').first()`. -/
def latestInactiveCompleted (db : DB) : Option Deployment :=
  firstByCompletedAt
    (db.filter (fun r => decide (r.status = Status.inactive ∧ r.completedAt ≠ none)))

/-- `deployment.status = st; deployment.save()` for the row with id `i`. -/
def setStatus (db : DB) (i : Nat) (st : Status) : DB :=
  db.map (fun r => if r.rid = i then { r with status := st } else r)

/-- `deployment.status = st; deployment.completed_at = timezone.now();
deployment.save()` for the row with id `i`. -/
def completeStatus (db : DB) (i : Nat) (st : Status) (now : Nat) : DB :=
  db.map (fun r => if r.rid = i then { r with status := st, completedAt := some now } else r)

/-- The writes of `_handle_deployment_failure` lines 593-596: status `failed`,
error message, completion timestamp. -/
def markFailed (db : DB) (i : Nat) (err : String) (now : Nat) : DB :=
  db.map (fun r =>
    if r.rid = i then
      { r with status := Status.failed, errorMessage := err, completedAt := some now }
    else r)

/-- `environment.deployments.exclude(id=i).filter(status='active')
.update(status='inactive')` (executor.py lines 74-76). -/
def demoteOtherActive (db : DB) (i : Nat) : DB :=
  db.map (fun r =>
    if r.rid ≠ i ∧ r.status = Status.active then { r with status := Status.inactive } else r)

/-- `Deployment.objects.create(..., status='pending', ...)` in
`DeploymentExecutor.deploy`. -/
def newDeployment (fresh now : Nat) : Deployment :=
  { rid := fresh, deployedAt := now, status := Status.pending, completedAt := none,
    errorMessage := "", rollbackFrom := none }

/-- `Deployment.objects.create(..., status='deploying', ...,
rollback_from=current)` in `DeploymentExecutor.rollback`. -/
def newRollbackDeployment (fresh now fromId : Nat) : Deployment :=
  { rid := fresh, deployedAt := now, status := Status.deploying, completedAt := none,
    errorMessage := "", rollbackFrom := some fromId }

/-- `DeploymentExecutor.rollback` (executor.py lines 89-142): find the current
active row and the latest inactive completed row, create a rollback record,
switch the symlink and reload (abstracted as the boolean oracle `externalOk`
for whether those filesystem/supervisor steps raise), then write the three
status updates.  On a missing active or missing predecessor the `ValueError`
is modelled as the returned error, with the database untouched. -/
def rollback (db : DB) (fresh now : Nat) (externalOk : Bool) : DB × Except String Nat :=
  match firstActive db with
  | none => (db, Except.error "No active deployment to rollback")
  | some current =>
    match latestInactiveCompleted db with
    | none => (db, Except.error "No previous deployment to rollback to")
    | some previous =>
      let db1 := db ++ [newRollbackDeployment fresh now current.rid]
      if externalOk then
        let db2 := setStatus db1 current.rid Status.rolled_back
        let db3 := setStatus db2 previous.rid Status.active
        let db4 := completeStatus db3 fresh Status.active now
        (db4, Except.ok fresh)
      else
        (db1, Except.error "rollback step failed")

/-- `DeploymentExecutor._handle_deployment_failure` (executor.py lines
591-610): mark the deployment failed with the error text and completion
timestamp, then attempt an automatic rollback whose own failure is caught and
logged (the rollback's returned error is discarded). -/
def _handle_deployment_failure (db : DB) (i : Nat) (err : String) (now : Nat)
    (rbFresh : Nat) (rbOk : Bool) : DB :=
  let db1 := markFailed db i err now
  (rollback db1 rbFresh now rbOk).1

/-- `DeploymentExecutor.deploy` (executor.py lines 32-87) at the granularity
of database writes: create a `pending` row with no admission check, run the
stage pipeline (abstracted as the oracle `pipeline`, which either succeeds or
raises the first stage error), on success mark the row `active` and demote
every other active row, on failure run `_handle_deployment_failure` and
re-raise the original error. -/
def deploy (db : DB) (fresh now : Nat) (pipeline : Except String Unit)
    (rbFresh : Nat) (rbOk : Bool) : DB × Except String Nat :=
  let db1 := db ++ [newDeployment fresh now]
  match pipeline with
  | Except.ok _ =>
    let db2 := completeStatus db1 fresh Status.active now
    let db3 := demoteOtherActive db2 fresh
    (db3, Except.ok fresh)
  | Except.error e =>
    (_handle_deployment_failure db1 fresh e now rbFresh rbOk, Except.error e)

/-- The non-terminal statuses checked by `DeploymentViewSet.deploy`
(api/views.py lines 143-145). -/
def inProgressStatuses : List Status :=
  [Status.pending, Status.cloning, Status.building, Status.deploying, Status.testing]

/-- `environment.deployments.filter(status__in=[...]).exists()`. -/
def hasDeploymentInProgress (db : DB) : Bool :=
  db.any (fun r => decide (r.status ∈ inProgressStatuses))

/-- Responses of the API deploy action. -/
inductive ApiDeployResult where
  | conflict (msg : String)
  | created (rid : Nat)
  | serverError (msg : String)
  deriving DecidableEq

/-- `DeploymentViewSet.deploy` (api/views.py lines 126-180): return 409
Conflict without touching the database when a non-terminal deployment exists,
otherwise call the executor. -/
def api_deploy (db : DB) (fresh now : Nat) (pipeline : Except String Unit)
    (rbFresh : Nat) (rbOk : Bool) : DB × ApiDeployResult :=
  if hasDeploymentInProgress db then
    (db, ApiDeployResult.conflict "Deployment already in progress for this environment")
  else
    match deploy db fresh now pipeline rbFresh rbOk with
    | (db', Except.ok rid) => (db', ApiDeployResult.created rid)
    | (db', Except.error e) => (db', ApiDeployResult.serverError e)

/-! ## Port allocation (`Project.get_next_available_port`, core/models.py 106-116) -/

theorem filter_ge_succ_le (l : List Nat) (p : Nat) :
    (l.filter (fun x => decide (p + 1 ≤ x))).length ≤
      (l.filter (fun x => decide (p ≤ x))).length := by
  induction l with
  | nil => simp
  | cons a t ih =>
    by_cases h1 : p + 1 ≤ a
    · have h2 : p ≤ a := Nat.le_of_succ_le h1
      simp [List.filter, h1, h2]
      omega
    · by_cases h2 : p ≤ a
      · simp [List.filter, h1, h2]
        omega
      · simp [List.filter, h1, h2]
        exact ih

theorem filter_ge_succ_lt (l : List Nat) (p : Nat) (hp : p ∈ l) :
    (l.filter (fun x => decide (p + 1 ≤ x))).length <
      (l.filter (fun x => decide (p ≤ x))).length := by
  induction l with
  | nil => cases hp
  | cons a t ih =>
    rcases List.mem_cons.mp hp with h | h
    · have h1 : ¬ (p + 1 ≤ a) := by omega
      have h2 : p ≤ a := by omega
      simp [List.filter, h1, h2]
      have := filter_ge_succ_le t p
      omega
    · have hlt := ih h
      by_cases h1 : p + 1 ≤ a
      · have h2 : p ≤ a := Nat.le_of_succ_le h1
        simp [List.filter, h1, h2]
        omega
      · by_cases h2 : p ≤ a
        · simp [List.filter, h1, h2]
          omega
        · simp [List.filter, h1, h2]
          exact hlt

/-- The `while port in used_ports: port += 1` loop of
`Project.get_next_available_port`. -/
def nextFreePort (used_ports : List Nat) (port : Nat) : Nat :=
  if h : port ∈ used_ports then nextFreePort used_ports (port + 1) else port
termination_by (used_ports.filter (fun x => decide (port ≤ x))).length
decreasing_by
  exact filter_ge_succ_lt used_ports port h

/-- `Project.get_next_available_port` (core/models.py lines 106-116):
`used_ports` are the ports of the Services belonging to the Environment;
the scan starts at the Project's `port_start`. -/
def get_next_available_port (used_ports : List Nat) (port_start : Nat) : Nat :=
  nextFreePort used_ports port_start

theorem nextFreePort_spec (used_ports : List Nat) (port : Nat) :
    port ≤ nextFreePort used_ports port ∧
    nextFreePort used_ports port ∉ used_ports ∧
    ∀ q, port ≤ q → q ∉ used_ports → nextFreePort used_ports port ≤ q := by
  rw [nextFreePort]
  by_cases h : port ∈ used_ports
  · rw [dif_pos h]
    have ih := nextFreePort_spec used_ports (port + 1)
    refine ⟨by omega, ih.2.1, ?_⟩
    intro q hq hqf
    have hne : q ≠ port := fun he => hqf (he ▸ h)
    exact ih.2.2 q (by omega) hqf
  · rw [dif_neg h]
    exact ⟨Nat.le_refl port, h, fun q hq _ => hq⟩
termination_by (used_ports.filter (fun x => decide (port ≤ x))).length
decreasing_by
  exact filter_ge_succ_lt used_ports port h

/-! ## Generic list helpers for the database model -/

theorem map_id_of_mem {α : Type} (l : List α) (f : α → α) (h : ∀ x ∈ l, f x = x) :
    l.map f = l := by
  induction l with
  | nil => rfl
  | cons a t ih =>
    simp only [List.map_cons]
    rw [h a (List.mem_cons_self a t), ih (fun x hx => h x (List.mem_cons_of_mem a hx))]

theorem map_rid_update (l : DB) (f : Deployment → Deployment)
    (h : ∀ r, (f r).rid = r.rid) :
    (l.map f).map (fun r => r.rid) = l.map (fun r => r.rid) := by
  induction l with
  | nil => rfl
  | cons a t ih => simp only [List.map_cons, h a, ih]

theorem firstByDeployedAt_mem (l : List Deployment) (b : Deployment)
    (h : firstByDeployedAt l = some b) : b ∈ l := by
  induction l generalizing b with
  | nil => simp [firstByDeployedAt] at h
  | cons a t ih =>
    have he : firstByDeployedAt (a :: t) =
        match firstByDeployedAt t with
        | none => some a
        | some c => if c.deployedAt > a.deployedAt then some c else some a := rfl
    rw [he] at h
    cases hr : firstByDeployedAt t with
    | none =>
      rw [hr] at h
      cases h
      exact List.mem_cons_self _ _
    | some c =>
      rw [hr] at h
      dsimp only at h
      by_cases hgt : c.deployedAt > a.deployedAt
      · rw [if_pos hgt] at h
        cases h
        exact List.mem_cons_of_mem _ (ih _ hr)
      · rw [if_neg hgt] at h
        cases h
        exact List.mem_cons_self _ _

theorem firstByCompletedAt_mem (l : List Deployment) (b : Deployment)
    (h : firstByCompletedAt l = some b) : b ∈ l := by
  induction l generalizing b with
  | nil => simp [firstByCompletedAt] at h
  | cons a t ih =>
    have he : firstByCompletedAt (a :: t) =
        match firstByCompletedAt t with
        | none => some a
        | some c => if c.completedAt.getD 0 > a.completedAt.getD 0 then some c else some a := rfl
    rw [he] at h
    cases hr : firstByCompletedAt t with
    | none =>
      rw [hr] at h
      cases h
      exact List.mem_cons_self _ _
    | some c =>
      rw [hr] at h
      dsimp only at h
      by_cases hgt : c.completedAt.getD 0 > a.completedAt.getD 0
      · rw [if_pos hgt] at h
        cases h
        exact List.mem_cons_of_mem _ (ih _ hr)
      · rw [if_neg hgt] at h
        cases h
        exact List.mem_cons_self _ _

theorem firstActive_facts (db : DB) (cur : Deployment) (h : firstActive db = some cur) :
    cur ∈ db ∧ cur.status = Status.active := by
  have hm := firstByDeployedAt_mem _ _ h
  refine ⟨List.mem_of_mem_filter hm, ?_⟩
  have := List.of_mem_filter hm
  simpa using this

theorem latestInactiveCompleted_facts (db : DB) (prev : Deployment)
    (h : latestInactiveCompleted db = some prev) :
    prev ∈ db ∧ prev.status = Status.inactive ∧ prev.completedAt ≠ none := by
  have hm := firstByCompletedAt_mem _ _ h
  refine ⟨List.mem_of_mem_filter hm, ?_⟩
  have := List.of_mem_filter hm
  simpa using this

theorem countP_rid_eq_one (db : DB) (hnd : (db.map (fun r => r.rid)).Nodup)
    (x : Deployment) (hx : x ∈ db) :
    db.countP (fun r => decide (r.rid = x.rid)) = 1 := by
  induction db with
  | nil => cases hx
  | cons a t ih =>
    rw [List.map_cons, List.nodup_cons] at hnd
    rcases List.mem_cons.mp hx with rfl | hxt
    · rw [List.countP_cons_of_pos _ _ (by simp)]
      have hz : t.countP (fun r => decide (r.rid = x.rid)) = 0 := by
        rw [List.countP_eq_zero]
        intro b hb
        simp only [decide_eq_true_eq]
        intro hbe
        exact hnd.1 (hbe ▸ List.mem_map_of_mem _ hb)
      omega
    · have hane : ¬ (a.rid = x.rid) := by
        intro he
        exact hnd.1 (he ▸ List.mem_map_of_mem _ hxt)
      rw [List.countP_cons_of_neg _ _ (by simpa using hane)]
      exact ih hnd.2 hxt

/-! ## Shape lemmas for deploy and rollback -/

theorem deploy_ok_db (db : DB) (fresh now rbF : Nat) (rbOk : Bool)
    (hfresh : ∀ r ∈ db, r.rid ≠ fresh) :
    (deploy db fresh now (Except.ok ()) rbF rbOk).1 =
      db.map (fun r =>
        if r.rid ≠ fresh ∧ r.status = Status.active then
          { r with status := Status.inactive } else r)
      ++ [{ rid := fresh, deployedAt := now, status := Status.active,
            completedAt := some now, errorMessage := "", rollbackFrom := none }] := by
  have h1 : (deploy db fresh now (Except.ok ()) rbF rbOk).1 =
      demoteOtherActive
        (completeStatus (db ++ [newDeployment fresh now]) fresh Status.active now) fresh := rfl
  rw [h1]
  have h2 : completeStatus (db ++ [newDeployment fresh now]) fresh Status.active now =
      db ++ [{ rid := fresh, deployedAt := now, status := Status.active,
               completedAt := some now, errorMessage := "", rollbackFrom := none }] := by
    unfold completeStatus
    rw [List.map_append]
    congr 1
    · exact map_id_of_mem db _ (fun x hx => if_neg (hfresh x hx))
    · simp [newDeployment]
  rw [h2]
  unfold demoteOtherActive
  rw [List.map_append]
  congr 1
  simp

theorem deploy_success_active (db : DB) (fresh now rbF : Nat) (rbOk : Bool)
    (hfresh : ∀ r ∈ db, r.rid ≠ fresh) :
    activeDeployments (deploy db fresh now (Except.ok ()) rbF rbOk).1 =
      [{ rid := fresh, deployedAt := now, status := Status.active,
         completedAt := some now, errorMessage := "", rollbackFrom := none }] := by
  rw [deploy_ok_db db fresh now rbF rbOk hfresh]
  unfold activeDeployments
  rw [List.filter_append]
  have hl : (db.map (fun r =>
      if r.rid ≠ fresh ∧ r.status = Status.active then
        { r with status := Status.inactive } else r)).filter
        (fun r => decide (r.status = Status.active)) = [] := by
    rw [List.filter_eq_nil_iff]
    intro x hx
    obtain ⟨r, hr, rfl⟩ := List.mem_map.mp hx
    by_cases hc : r.rid ≠ fresh ∧ r.status = Status.active
    · rw [if_pos hc]
      simp
    · rw [if_neg hc]
      have hna : ¬ r.status = Status.active := fun hs => hc ⟨hfresh r hr, hs⟩
      simpa using hna
  rw [hl]
  simp

theorem rollback_db_cases (db : DB) (fresh now : Nat) (ok : Bool) :
    (rollback db fresh now ok).1 = db
    ∨ (∃ cur, firstActive db = some cur ∧
        (rollback db fresh now ok).1 = db ++ [newRollbackDeployment fresh now cur.rid])
    ∨ (∃ cur prev, firstActive db = some cur ∧ latestInactiveCompleted db = some prev ∧
        (rollback db fresh now ok).1 =
          completeStatus
            (setStatus
              (setStatus (db ++ [newRollbackDeployment fresh now cur.rid])
                cur.rid Status.rolled_back)
              prev.rid Status.active)
            fresh Status.active now) := by
  unfold rollback
  cases hfa : firstActive db with
  | none => left; rfl
  | some cur =>
    cases hlc : latestInactiveCompleted db with
    | none => left; rfl
    | some prev =>
      cases ok with
      | false => right; left; exact ⟨cur, rfl, rfl⟩
      | true => right; right; exact ⟨cur, prev, rfl, rfl, rfl⟩

theorem setStatus_map_rid (l : DB) (i : Nat) (st : Status) :
    (setStatus l i st).map (fun r => r.rid) = l.map (fun r => r.rid) :=
  map_rid_update l _ (fun r => by
    show (if r.rid = i then { r with status := st } else r).rid = r.rid
    split <;> rfl)

theorem completeStatus_map_rid (l : DB) (i : Nat) (st : Status) (now : Nat) :
    (completeStatus l i st now).map (fun r => r.rid) = l.map (fun r => r.rid) :=
  map_rid_update l _ (fun r => by
    show (if r.rid = i then { r with status := st, completedAt := some now } else r).rid = r.rid
    split <;> rfl)

theorem markFailed_map_rid (l : DB) (i : Nat) (err : String) (now : Nat) :
    (markFailed l i err now).map (fun r => r.rid) = l.map (fun r => r.rid) :=
  map_rid_update l _ (fun r => by
    show (if r.rid = i then
        { r with status := Status.failed, errorMessage := err, completedAt := some now }
      else r).rid = r.rid
    split <;> rfl)

theorem demoteOtherActive_map_rid (l : DB) (i : Nat) :
    (demoteOtherActive l i).map (fun r => r.rid) = l.map (fun r => r.rid) :=
  map_rid_update l _ (fun r => by
    show (if r.rid ≠ i ∧ r.status = Status.active then
        { r with status := Status.inactive } else r).rid = r.rid
    split <;> rfl)

theorem rollback_ok_shape (db : DB) (fresh now : Nat) (cur prev : Deployment)
    (hfa : firstActive db = some cur)
    (hlc : latestInactiveCompleted db = some prev)
    (hfresh : ∀ r ∈ db, r.rid ≠ fresh) :
    (rollback db fresh now true).1 =
      db.map (fun r =>
        (fun s => if s.rid = prev.rid then { s with status := Status.active } else s)
          (if r.rid = cur.rid then { r with status := Status.rolled_back } else r))
      ++ [{ rid := fresh, deployedAt := now, status := Status.active,
            completedAt := some now, errorMessage := "", rollbackFrom := some cur.rid }] := by
  obtain ⟨hcm, _⟩ := firstActive_facts db cur hfa
  obtain ⟨hpm, _, _⟩ := latestInactiveCompleted_facts db prev hlc
  have hcurf : cur.rid ≠ fresh := hfresh cur hcm
  have hprevf : prev.rid ≠ fresh := hfresh prev hpm
  have h0 : (rollback db fresh now true).1 =
      completeStatus
        (setStatus
          (setStatus (db ++ [newRollbackDeployment fresh now cur.rid])
            cur.rid Status.rolled_back)
          prev.rid Status.active)
        fresh Status.active now := by
    unfold rollback
    rw [hfa, hlc]
    rfl
  rw [h0]
  have h1 : setStatus (db ++ [newRollbackDeployment fresh now cur.rid])
      cur.rid Status.rolled_back =
      setStatus db cur.rid Status.rolled_back ++ [newRollbackDeployment fresh now cur.rid] := by
    unfold setStatus
    rw [List.map_append]
    congr 1
    simp [newRollbackDeployment, Ne.symm hcurf]
  rw [h1]
  have h2 : setStatus (setStatus db cur.rid Status.rolled_back ++
        [newRollbackDeployment fresh now cur.rid]) prev.rid Status.active =
      setStatus (setStatus db cur.rid Status.rolled_back) prev.rid Status.active ++
        [newRollbackDeployment fresh now cur.rid] := by
    unfold setStatus
    rw [List.map_append]
    congr 1
    simp [newRollbackDeployment, Ne.symm hprevf]
  rw [h2]
  have hY : (setStatus (setStatus db cur.rid Status.rolled_back) prev.rid Status.active).map
      (fun r => r.rid) = db.map (fun r => r.rid) := by
    rw [setStatus_map_rid, setStatus_map_rid]
  have hYfresh : ∀ x ∈ setStatus (setStatus db cur.rid Status.rolled_back)
      prev.rid Status.active, x.rid ≠ fresh := by
    intro x hx
    have hmm : x.rid ∈ (setStatus (setStatus db cur.rid Status.rolled_back)
        prev.rid Status.active).map (fun r => r.rid) := List.mem_map_of_mem _ hx
    rw [hY] at hmm
    obtain ⟨r, hr, he⟩ := List.mem_map.mp hmm
    exact he ▸ hfresh r hr
  have h3 : completeStatus
      (setStatus (setStatus db cur.rid Status.rolled_back) prev.rid Status.active ++
        [newRollbackDeployment fresh now cur.rid]) fresh Status.active now =
      setStatus (setStatus db cur.rid Status.rolled_back) prev.rid Status.active ++
        [{ rid := fresh, deployedAt := now, status := Status.active,
           completedAt := some now, errorMessage := "", rollbackFrom := some cur.rid }] := by
    unfold completeStatus
    rw [List.map_append]
    congr 1
    · exact map_id_of_mem _ _ (fun x hx => if_neg (hYfresh x hx))
    · simp [newRollbackDeployment]
  rw [h3]
  congr 1
  unfold setStatus
  rw [List.map_map]
  rfl

theorem rollback_two_active (db : DB) (fresh now : Nat) (cur prev : Deployment)
    (hact : activeDeployments db = [cur])
    (hlc : latestInactiveCompleted db = some prev)
    (hnd : (db.map (fun r => r.rid)).Nodup)
    (hfresh : ∀ r ∈ db, r.rid ≠ fresh) :
    (activeDeployments (rollback db fresh now true).1).length = 2
    ∧ (∃ r ∈ activeDeployments (rollback db fresh now true).1, r.rid = prev.rid)
    ∧ (∃ r ∈ activeDeployments (rollback db fresh now true).1, r.rid = fresh) := by
  have hfa : firstActive db = some cur := by
    unfold firstActive
    rw [hact]
    rfl
  obtain ⟨hcm, hcs⟩ := firstActive_facts db cur hfa
  obtain ⟨hpm, hps, _⟩ := latestInactiveCompleted_facts db prev hlc
  have hinj := List.inj_on_of_nodup_map hnd
  have hpc : prev.rid ≠ cur.rid := by
    intro he
    have hpcur : prev = cur := hinj hpm hcm he
    rw [hpcur, hcs] at hps
    cases hps
  have hcp : ¬ (cur.rid = prev.rid) := fun he => hpc he.symm
  have hiff : ∀ r ∈ db,
      (decide (((fun s => if s.rid = prev.rid then { s with status := Status.active } else s)
          (if r.rid = cur.rid then { r with status := Status.rolled_back } else r)).status =
          Status.active) = true)
        ↔ (decide (r.rid = prev.rid) = true) := by
    intro r hr
    by_cases h1 : r.rid = cur.rid
    · simp [h1, hcp]
    · by_cases h2 : r.rid = prev.rid
      · simp [h1, h2, hpc]
      · have hna : ¬ r.status = Status.active := by
          intro hs
          have hrin : r ∈ activeDeployments db :=
            List.mem_filter.mpr ⟨hr, by simp [hs]⟩
          rw [hact] at hrin
          rcases List.mem_singleton.mp hrin with rfl
          exact h1 rfl
        simp [h1, h2, hna]
  have hAD : activeDeployments (rollback db fresh now true).1 =
      ((db.map (fun r =>
        (fun s => if s.rid = prev.rid then { s with status := Status.active } else s)
          (if r.rid = cur.rid then { r with status := Status.rolled_back } else r))).filter
          (fun r => decide (r.status = Status.active)))
      ++ [{ rid := fresh, deployedAt := now, status := Status.active,
            completedAt := some now, errorMessage := "", rollbackFrom := some cur.rid }] := by
    rw [rollback_ok_shape db fresh now cur prev hfa hlc hfresh]
    unfold activeDeployments
    rw [List.filter_append]
    congr 1
  have hcnt : ((db.map (fun r =>
      (fun s => if s.rid = prev.rid then { s with status := Status.active } else s)
        (if r.rid = cur.rid then { r with status := Status.rolled_back } else r))).filter
        (fun r => decide (r.status = Status.active))).length = 1 := by
    rw [← List.countP_eq_length_filter, List.countP_map]
    exact (List.countP_congr hiff).trans (countP_rid_eq_one db hnd prev hpm)
  refine ⟨?_, ?_, ?_⟩
  · rw [hAD, List.length_append, hcnt]
    rfl
  · refine ⟨{ prev with status := Status.active }, ?_, rfl⟩
    rw [hAD]
    apply List.mem_append_left
    apply List.mem_filter.mpr
    constructor
    · apply List.mem_map.mpr
      refine ⟨prev, hpm, ?_⟩
      simp [hpc]
    · simp
  · have hrb : ({ rid := fresh, deployedAt := now, status := Status.active,
                   completedAt := some now, errorMessage := "",
                   rollbackFrom := some cur.rid } : Deployment) ∈
        activeDeployments (rollback db fresh now true).1 := by
      rw [hAD]
      apply List.mem_append_right
      exact List.mem_singleton.mpr rfl
    exact ⟨_, hrb, rfl⟩

theorem mem_rid_rollback (l : DB) (f n : Nat) (ok : Bool) (x : Nat)
    (hx : x ∈ l.map (fun r => r.rid)) :
    x ∈ ((rollback l f n ok).1).map (fun r => r.rid) := by
  rcases rollback_db_cases l f n ok with h | ⟨cur, _, h⟩ | ⟨cur, prev, _, _, h⟩ <;> rw [h]
  · exact hx
  · rw [List.map_append]
    exact List.mem_append_left _ hx
  · rw [completeStatus_map_rid, setStatus_map_rid, setStatus_map_rid, List.map_append]
    exact List.mem_append_left _ hx

theorem markFailed_append (db : DB) (r : Deployment) (err : String) (now : Nat)
    (hfresh : ∀ x ∈ db, x.rid ≠ r.rid) :
    markFailed (db ++ [r]) r.rid err now =
      db ++ [{ r with status := Status.failed, errorMessage := err, completedAt := some now }] := by
  unfold markFailed
  rw [List.map_append]
  congr 1
  · exact map_id_of_mem db _ (fun x hx => if_neg (hfresh x hx))
  · simp

theorem mem_rid_deploy (db : DB) (fresh now rbF : Nat) (rbOk : Bool)
    (pipeline : Except String Unit) :
    fresh ∈ ((deploy db fresh now pipeline rbF rbOk).1).map (fun r => r.rid) := by
  have hbase : fresh ∈ (db ++ [newDeployment fresh now]).map (fun r => r.rid) := by
    rw [List.map_append]
    apply List.mem_append_right
    exact List.mem_singleton.mpr rfl
  cases pipeline with
  | ok u =>
    have h : (deploy db fresh now (Except.ok u) rbF rbOk).1 =
        demoteOtherActive
          (completeStatus (db ++ [newDeployment fresh now]) fresh Status.active now)
          fresh := rfl
    rw [h, demoteOtherActive_map_rid, completeStatus_map_rid]
    exact hbase
  | error e =>
    have h : (deploy db fresh now (Except.error e) rbF rbOk).1 =
        (rollback (markFailed (db ++ [newDeployment fresh now]) fresh e now)
          rbF now rbOk).1 := rfl
    rw [h]
    apply mem_rid_rollback
    rw [markFailed_map_rid]
    exact hbase

theorem failed_survives_rollback (l : DB) (f n : Nat) (ok : Bool) (r : Deployment)
    (hr : r ∈ l) (hst : r.status = Status.failed)
    (hrid : ∀ a ∈ l, a.rid = r.rid → a = r)
    (hf : f ≠ r.rid) :
    r ∈ (rollback l f n ok).1 := by
  rcases rollback_db_cases l f n ok with h | ⟨cur, _, h⟩ | ⟨cur, prev, hfa, hlc, h⟩ <;> rw [h]
  · exact hr
  · exact List.mem_append_left _ hr
  · obtain ⟨hcm, hcs⟩ := firstActive_facts l cur hfa
    obtain ⟨hpm, hps, _⟩ := latestInactiveCompleted_facts l prev hlc
    have hcne : r.rid ≠ cur.rid := by
      intro he
      have : cur = r := hrid cur hcm he.symm
      rw [this, hst] at hcs
      cases hcs
    have hpne : r.rid ≠ prev.rid := by
      intro he
      have : prev = r := hrid prev hpm he.symm
      rw [this, hst] at hps
      cases hps
    have h1 : r ∈ setStatus (l ++ [newRollbackDeployment f n cur.rid])
        cur.rid Status.rolled_back := by
      apply List.mem_map.mpr
      exact ⟨r, List.mem_append_left _ hr, if_neg hcne⟩
    have h2 : r ∈ setStatus (setStatus (l ++ [newRollbackDeployment f n cur.rid])
        cur.rid Status.rolled_back) prev.rid Status.active := by
      apply List.mem_map.mpr
      exact ⟨r, h1, if_neg hpne⟩
    apply List.mem_map.mpr
    exact ⟨r, h2, if_neg (fun he => hf he.symm)⟩

/-! ## Claim C1 -/

/-- C1, counterexample: starting from an empty Environment, two successful
deploys followed by one successful rollback — a state reachable by sequential
executions of deploy and rollback — end with TWO Deployments in status
`active` (the restored previous deployment and the new rollback record), so
the ≤ 1 bound on active Deployments claimed by C1 is violated. -/
theorem C1_counterexample :
    (activeDeployments
      (rollback
        (deploy (deploy [] 1 10 (Except.ok ()) 0 true).1 2 20 (Except.ok ()) 0 true).1
        3 30 true).1).length = 2 := by rfl

/-- C1, amended: when a deploy completes successfully, the newly activated
Deployment is the unique `active` one — every other previously `active`
Deployment of the Environment is demoted, so deploy completion preserves the
≤ 1 bound.  A completed rollback, however, leaves TWO Deployments `active`:
the restored previous deployment and the new rollback record (executor.py
lines 126-135 set both `previous` and `rollback_deployment` to `active`), so
the ≤ 1 bound does not hold across rollbacks. -/
theorem C1_active_invariant (db : DB) (fresh now rbF : Nat) (rbOk : Bool)
    (hfresh : ∀ r ∈ db, r.rid ≠ fresh) :
    ((activeDeployments (deploy db fresh now (Except.ok ()) rbF rbOk).1).length = 1
      ∧ ∀ r ∈ activeDeployments (deploy db fresh now (Except.ok ()) rbF rbOk).1, r.rid = fresh)
    ∧ (∀ cur prev,
        activeDeployments db = [cur] →
        latestInactiveCompleted db = some prev →
        (db.map (fun r => r.rid)).Nodup →
        (activeDeployments (rollback db fresh now true).1).length = 2
        ∧ (∃ r ∈ activeDeployments (rollback db fresh now true).1, r.rid = prev.rid)
        ∧ (∃ r ∈ activeDeployments (rollback db fresh now true).1, r.rid = fresh)) := by
  constructor
  · rw [deploy_success_active db fresh now rbF rbOk hfresh]
    refine ⟨rfl, ?_⟩
    intro r hr
    rcases List.mem_singleton.mp hr with rfl
    rfl
  · intro cur prev h1 h2 h3
    exact rollback_two_active db fresh now cur prev h1 h2 h3 hfresh

/-- Witness for C1_active_invariant: a concrete Environment with an inactive
completed deployment (id 1) and an active one (id 2); deploying id 3 leaves
exactly one active row, and rolling back from the same state leaves two. -/
theorem C1_active_invariant_witness :
    (∀ r ∈ ([{ rid := 1, deployedAt := 10, status := Status.inactive, completedAt := some 10,
               errorMessage := "", rollbackFrom := none },
             { rid := 2, deployedAt := 20, status := Status.active, completedAt := some 20,
               errorMessage := "", rollbackFrom := none }] : DB), r.rid ≠ 3)
    ∧ (activeDeployments
        (deploy [{ rid := 1, deployedAt := 10, status := Status.inactive, completedAt := some 10,
                   errorMessage := "", rollbackFrom := none },
                 { rid := 2, deployedAt := 20, status := Status.active, completedAt := some 20,
                   errorMessage := "", rollbackFrom := none }] 3 30 (Except.ok ()) 0 true).1).length = 1
    ∧ (activeDeployments
        (rollback [{ rid := 1, deployedAt := 10, status := Status.inactive, completedAt := some 10,
                     errorMessage := "", rollbackFrom := none },
                   { rid := 2, deployedAt := 20, status := Status.active, completedAt := some 20,
                     errorMessage := "", rollbackFrom := none }] 3 30 true).1).length = 2 := by
  have h := C1_active_invariant
    [{ rid := 1, deployedAt := 10, status := Status.inactive, completedAt := some 10,
       errorMessage := "", rollbackFrom := none },
     { rid := 2, deployedAt := 20, status := Status.active, completedAt := some 20,
       errorMessage := "", rollbackFrom := none }] 3 30 0 true (by decide)
  exact ⟨by decide, h.1.1,
    (h.2 { rid := 2, deployedAt := 20, status := Status.active, completedAt := some 20,
           errorMessage := "", rollbackFrom := none }
         { rid := 1, deployedAt := 10, status := Status.inactive, completedAt := some 10,
           errorMessage := "", rollbackFrom := none }
      (by decide) (by decide) (by decide)).1⟩

/-! ## Claim C2 -/

/-- C2, counterexample: an Environment with a Deployment in the non-terminal
`building` stage; calling `DeploymentExecutor.deploy` — the `deploy(project,
environment, commit?, initiator)` entry point named by the claim — is NOT
rejected: it creates a second Deployment row (the table grows from 1 to 2
rows) and the call returns success rather than a Conflict error. -/
theorem C2_counterexample :
    hasDeploymentInProgress
      [{ rid := 1, deployedAt := 10, status := Status.building, completedAt := none,
         errorMessage := "", rollbackFrom := none }] = true
    ∧ (deploy
        [{ rid := 1, deployedAt := 10, status := Status.building, completedAt := none,
           errorMessage := "", rollbackFrom := none }] 2 20 (Except.ok ()) 0 true).1.length = 2
    ∧ (deploy
        [{ rid := 1, deployedAt := 10, status := Status.building, completedAt := none,
           errorMessage := "", rollbackFrom := none }] 2 20 (Except.ok ()) 0 true).2 =
        Except.ok 2 := by
  exact ⟨rfl, rfl, rfl⟩

/-- C2, amended: the Conflict admission check lives in the callers, not the
executor: `DeploymentViewSet.deploy` (api/views.py lines 142-149) rejects
with 409 Conflict and leaves the table untouched whenever the Environment has
a Deployment in a non-terminal stage, while `DeploymentExecutor.deploy`
itself performs no admission check and always inserts a new row (with the
fresh id) even when a non-terminal Deployment exists. -/
theorem C2_admission_amended (db : DB) (fresh now rbF : Nat) (rbOk : Bool)
    (pipeline : Except String Unit)
    (h : hasDeploymentInProgress db = true) :
    api_deploy db fresh now pipeline rbF rbOk =
      (db, ApiDeployResult.conflict "Deployment already in progress for this environment")
    ∧ fresh ∈ ((deploy db fresh now pipeline rbF rbOk).1).map (fun r => r.rid) := by
  constructor
  · unfold api_deploy
    rw [if_pos h]
  · exact mem_rid_deploy db fresh now rbF rbOk pipeline

/-- Witness for C2_admission_amended: the API deploy action on an Environment
whose only Deployment is in stage `building` returns Conflict and creates no
row, while the executor called directly on the same state inserts row id 2. -/
theorem C2_admission_amended_witness :
    hasDeploymentInProgress
      [{ rid := 1, deployedAt := 10, status := Status.building, completedAt := none,
         errorMessage := "", rollbackFrom := none }] = true
    ∧ api_deploy
        [{ rid := 1, deployedAt := 10, status := Status.building, completedAt := none,
           errorMessage := "", rollbackFrom := none }] 2 20 (Except.ok ()) 0 true =
        ([{ rid := 1, deployedAt := 10, status := Status.building, completedAt := none,
            errorMessage := "", rollbackFrom := none }],
         ApiDeployResult.conflict "Deployment already in progress for this environment")
    ∧ 2 ∈ ((deploy
        [{ rid := 1, deployedAt := 10, status := Status.building, completedAt := none,
           errorMessage := "", rollbackFrom := none }] 2 20 (Except.ok ()) 0 true).1).map
        (fun r => r.rid) := by
  have h := C2_admission_amended
    [{ rid := 1, deployedAt := 10, status := Status.building, completedAt := none,
       errorMessage := "", rollbackFrom := none }] 2 20 0 true (Except.ok ()) (by decide)
  exact ⟨by decide, h.1, h.2⟩

/-! ## Claim C3 -/

/-- C3: when the stage pipeline of a deploy raises with error `e`, the
failure handler records the Deployment as `failed` with error text `e` and a
completion timestamp, and the error that propagates out of the deploy call is
the original stage error `e` — for EVERY outcome of the automatic rollback
attempt (`rbOk` true or false), i.e. a rollback failure is swallowed and
never masks the original failure. -/
theorem C3_failure_original_error (db : DB) (fresh now rbF : Nat) (rbOk : Bool) (e : String)
    (hfresh : ∀ r ∈ db, r.rid ≠ fresh) (hrb : rbF ≠ fresh) :
    (deploy db fresh now (Except.error e) rbF rbOk).2 = Except.error e
    ∧ ∃ r ∈ (deploy db fresh now (Except.error e) rbF rbOk).1,
        r.rid = fresh ∧ r.status = Status.failed ∧ r.errorMessage = e ∧
        r.completedAt = some now := by
  refine ⟨rfl, ?_⟩
  have hmf : markFailed (db ++ [newDeployment fresh now]) fresh e now =
      db ++ [{ rid := fresh, deployedAt := now, status := Status.failed,
               completedAt := some now, errorMessage := e, rollbackFrom := none }] :=
    markFailed_append db (newDeployment fresh now) e now hfresh
  have hshape : (deploy db fresh now (Except.error e) rbF rbOk).1 =
      (rollback (db ++ [{ rid := fresh, deployedAt := now, status := Status.failed,
                          completedAt := some now, errorMessage := e,
                          rollbackFrom := none }]) rbF now rbOk).1 := by
    show (_handle_deployment_failure (db ++ [newDeployment fresh now]) fresh e now rbF rbOk) = _
    unfold _handle_deployment_failure
    rw [hmf]
  rw [hshape]
  have hsurv : ({ rid := fresh, deployedAt := now, status := Status.failed,
                  completedAt := some now, errorMessage := e,
                  rollbackFrom := none } : Deployment) ∈
      (rollback (db ++ [{ rid := fresh, deployedAt := now, status := Status.failed,
                          completedAt := some now, errorMessage := e,
                          rollbackFrom := none }]) rbF now rbOk).1 := by
    apply failed_survives_rollback
    · exact List.mem_append_right _ (List.mem_singleton.mpr rfl)
    · rfl
    · intro a ha hae
      rcases List.mem_append.mp ha with hin | hin
      · exact absurd hae (hfresh a hin)
      · exact List.mem_singleton.mp hin
    · exact hrb
  exact ⟨_, hsurv, rfl, rfl, rfl, rfl⟩

/-- Witness for C3_failure_original_error: a deploy into an empty Environment
whose pipeline fails with "boom" while the auto-rollback itself also fails:
the call still reports "boom" and the row ends `failed`. -/
theorem C3_failure_original_error_witness :
    (∀ r ∈ ([] : DB), r.rid ≠ 1)
    ∧ (2 : Nat) ≠ 1
    ∧ (deploy [] 1 10 (Except.error "boom") 2 false).2 = Except.error "boom"
    ∧ ∃ r ∈ (deploy [] 1 10 (Except.error "boom") 2 false).1,
        r.rid = 1 ∧ r.status = Status.failed ∧ r.errorMessage = "boom" ∧
        r.completedAt = some 10 := by
  have h := C3_failure_original_error [] 1 10 2 false "boom" (by decide) (by decide)
  exact ⟨by decide, by decide, h.1, h.2⟩

/-! ## Claim C5 -/

/-- C5: a rollback call on an Environment with no `active` Deployment fails
with "No active deployment to rollback" and leaves the deployment table
completely unchanged (no new row, no status change); a rollback call on an
Environment that has an active Deployment but no completed Deployment with
status `inactive` fails with "No previous deployment to rollback to", also
leaving the table unchanged. -/
theorem C5_rollback_guards (db : DB) (fresh now : Nat) (ok : Bool) :
    ((∀ r ∈ db, r.status ≠ Status.active) →
      rollback db fresh now ok = (db, Except.error "No active deployment to rollback"))
    ∧ (∀ cur, firstActive db = some cur →
        (∀ r ∈ db, ¬(r.status = Status.inactive ∧ r.completedAt ≠ none)) →
        rollback db fresh now ok =
          (db, Except.error "No previous deployment to rollback to")) := by
  constructor
  · intro h
    have hfa : firstActive db = none := by
      unfold firstActive activeDeployments
      have hfe : db.filter (fun r => decide (r.status = Status.active)) = [] :=
        List.filter_eq_nil_iff.mpr (fun a ha => by simpa using h a ha)
      rw [hfe]
      rfl
    unfold rollback
    rw [hfa]
  · intro cur hfa h
    have hlc : latestInactiveCompleted db = none := by
      unfold latestInactiveCompleted
      have hfe : db.filter
          (fun r => decide (r.status = Status.inactive ∧ r.completedAt ≠ none)) = [] :=
        List.filter_eq_nil_iff.mpr (fun a ha => by simpa using h a ha)
      rw [hfe]
      rfl
    unfold rollback
    rw [hfa, hlc]

/-- Witness for C5_rollback_guards: an empty Environment rejects rollback
with the no-active error; an Environment whose only Deployment is active
(with no inactive predecessor) rejects rollback with the
nothing-to-roll-back-to error; both leave the table unchanged. -/
theorem C5_rollback_guards_witness :
    ((∀ r ∈ ([] : DB), r.status ≠ Status.active)
      ∧ rollback [] 5 50 true = ([], Except.error "No active deployment to rollback"))
    ∧ (firstActive
        [{ rid := 1, deployedAt := 10, status := Status.active, completedAt := some 10,
           errorMessage := "", rollbackFrom := none }] =
        some { rid := 1, deployedAt := 10, status := Status.active, completedAt := some 10,
               errorMessage := "", rollbackFrom := none }
      ∧ rollback
          [{ rid := 1, deployedAt := 10, status := Status.active, completedAt := some 10,
             errorMessage := "", rollbackFrom := none }] 5 50 true =
          ([{ rid := 1, deployedAt := 10, status := Status.active, completedAt := some 10,
              errorMessage := "", rollbackFrom := none }],
           Except.error "No previous deployment to rollback to")) := by
  constructor
  · exact ⟨by decide, (C5_rollback_guards [] 5 50 true).1 (by decide)⟩
  · refine ⟨by decide, ?_⟩
    exact (C5_rollback_guards
      [{ rid := 1, deployedAt := 10, status := Status.active, completedAt := some 10,
         errorMessage := "", rollbackFrom := none }] 5 50 true).2
      { rid := 1, deployedAt := 10, status := Status.active, completedAt := some 10,
        errorMessage := "", rollbackFrom := none } (by decide) (by decide)

/-! ## Claim C8 -/

/-- C8: `Project.get_next_available_port` returns the smallest integer p
greater than or equal to the Project's configured start port such that p is
not among the ports of the Environment's Services; in particular with
existing ports {8000, 8001, 8003} and start port 8000 it returns 8002. -/
theorem C8_port_allocation (used_ports : List Nat) (port_start : Nat) :
    (port_start ≤ get_next_available_port used_ports port_start
      ∧ get_next_available_port used_ports port_start ∉ used_ports
      ∧ ∀ q, port_start ≤ q → q ∉ used_ports →
          get_next_available_port used_ports port_start ≤ q)
    ∧ get_next_available_port [8000, 8001, 8003] 8000 = 8002 := by
  refine ⟨nextFreePort_spec used_ports port_start, ?_⟩
  simp [get_next_available_port, nextFreePort]

/-- Witness for C8_port_allocation: on ports {8000, 8001, 8003} with start
port 8000 the allocator stays ≥ 8000, avoids the used set, and the
minimality clause instantiated at the free port 8002 bounds it by 8002. -/
theorem C8_port_allocation_witness :
    8000 ≤ get_next_available_port [8000, 8001, 8003] 8000
    ∧ get_next_available_port [8000, 8001, 8003] 8000 ∉ [8000, 8001, 8003]
    ∧ get_next_available_port [8000, 8001, 8003] 8000 ≤ 8002 := by
  have h := C8_port_allocation [8000, 8001, 8003] 8000
  exact ⟨h.1.1, h.1.2.1, h.1.2.2 8002 (by omega) (by decide)⟩

/-! ## Health checks (`DeploymentExecutor._perform_health_checks`, executor.py 508-555) -/

/-- `Service.SERVICE_TYPES` from core/models.py; `django` is the web-facing
type probed by health checks and routed by nginx. -/
inductive ServiceType where
  | django
  | celery
  | celery_beat
  | custom
  deriving DecidableEq

/-- One row of the `deployer_services` table (fields used by the claims). -/
structure Service where
  name : String
  service_type : ServiceType
  enabled : Bool
  port : Option Nat
  health_check_endpoint : String
  last_health_check : Option Nat
  deriving DecidableEq

/-- One row of the `deployer_health_checks` table. -/
structure HealthCheckRec where
  serviceName : String
  is_healthy : Bool
  error_message : String
  deriving DecidableEq

/-- The body of one probe (executor.py lines 521-547): the HTTP request is
abstracted as the oracle `probe`, returning the response status code or the
raised exception's message; the recorded row is healthy exactly when a
response arrived with status code 200. -/
def probeOutcome (probe : Service → Except String Nat) (s : Service) : HealthCheckRec :=
  match probe s with
  | Except.ok code =>
    { serviceName := s.name, is_healthy := decide (code = 200),
      error_message := if code = 200 then "" else "Status code: " ++ toString code }
  | Except.error e =>
    { serviceName := s.name, is_healthy := false, error_message := e }

/-- The in-loop condition `service.service_type == 'django' and
service.health_check_endpoint` (executor.py line 519). -/
def probeCond (s : Service) : Bool :=
  decide (s.service_type = ServiceType.django ∧ s.health_check_endpoint ≠ "")

/-- One iteration of the loop in `_perform_health_checks`: probed services
append a HealthCheck row and fold their health into `all_healthy`; every
enabled service gets its `last_health_check` timestamp updated. -/
def hcStep (probe : Service → Except String Nat) (now : Nat)
    (acc : List HealthCheckRec × List Service × Bool) (s : Service) :
    List HealthCheckRec × List Service × Bool :=
  if probeCond s then
    (acc.1 ++ [probeOutcome probe s],
     acc.2.1 ++ [{ s with last_health_check := some now }],
     acc.2.2 && (probeOutcome probe s).is_healthy)
  else
    (acc.1, acc.2.1 ++ [{ s with last_health_check := some now }], acc.2.2)

/-- `DeploymentExecutor._perform_health_checks` (executor.py lines 508-555):
iterate over the enabled services, probe the django services with a
configured health endpoint, then raise "Health checks failed" if and only if
some probed service was unhealthy.  Returns the created HealthCheck rows, the
updated services and the raise/no-raise outcome. -/
def _perform_health_checks (services : List Service) (probe : Service → Except String Nat)
    (now : Nat) : List HealthCheckRec × List Service × Except String Unit :=
  let enabled := services.filter (fun s => s.enabled)
  let result := enabled.foldl (hcStep probe now) ([], [], true)
  (result.1, result.2.1,
   if result.2.2 then Except.ok () else Except.error "Health checks failed")

theorem hc_foldl (probe : Service → Except String Nat) (now : Nat) (l : List Service)
    (rows : List HealthCheckRec) (svcs : List Service) (b : Bool) :
    l.foldl (hcStep probe now) (rows, svcs, b) =
      (rows ++ (l.filter probeCond).map (probeOutcome probe),
       svcs ++ l.map (fun s => { s with last_health_check := some now }),
       b && (l.filter probeCond).all (fun s => (probeOutcome probe s).is_healthy)) := by
  induction l generalizing rows svcs b with
  | nil => simp
  | cons a t ih =>
    by_cases hc : probeCond a
    · rw [List.foldl_cons,
        show hcStep probe now (rows, svcs, b) a =
          (rows ++ [probeOutcome probe a],
           svcs ++ [{ a with last_health_check := some now }],
           b && (probeOutcome probe a).is_healthy) from by unfold hcStep; rw [if_pos hc],
        ih]
      simp [List.filter_cons, hc, List.append_assoc, Bool.and_assoc]
    · rw [List.foldl_cons,
        show hcStep probe now (rows, svcs, b) a =
          (rows, svcs ++ [{ a with last_health_check := some now }], b) from by
            unfold hcStep; rw [if_neg hc],
        ih]
      simp [List.filter_cons, hc, List.append_assoc]

/-! ## Claim C4 -/

/-- C4: in the testing stage, exactly the enabled django services with a
configured health endpoint are probed, in order, and each probe records a
HealthCheck row whose `is_healthy` is true if and only if the HTTP response
arrived with status code 200; the stage raises "Health checks failed" if and
only if at least one probed service is unhealthy, and the recorded rows cover
every probed service even when the stage raises (all services are probed
before the failure is raised). -/
theorem C4_health_checks (services : List Service) (probe : Service → Except String Nat)
    (now : Nat) :
    ((_perform_health_checks services probe now).1 =
      ((services.filter (fun s => s.enabled)).filter probeCond).map (probeOutcome probe))
    ∧ (∀ s, (probeOutcome probe s).is_healthy = true ↔ probe s = Except.ok 200)
    ∧ ((_perform_health_checks services probe now).2.2 =
          Except.error "Health checks failed" ↔
        ∃ s ∈ (services.filter (fun s => s.enabled)).filter probeCond,
          (probeOutcome probe s).is_healthy = false)
    ∧ ((_perform_health_checks services probe now).2.2 = Except.ok () ↔
        ∀ s ∈ (services.filter (fun s => s.enabled)).filter probeCond,
          (probeOutcome probe s).is_healthy = true) := by
  have h0 : _perform_health_checks services probe now =
      (((services.filter (fun s => s.enabled)).foldl (hcStep probe now) ([], [], true)).1,
       ((services.filter (fun s => s.enabled)).foldl (hcStep probe now) ([], [], true)).2.1,
       if ((services.filter (fun s => s.enabled)).foldl (hcStep probe now) ([], [], true)).2.2
       then Except.ok () else Except.error "Health checks failed") := rfl
  rw [h0, hc_foldl probe now (services.filter (fun s => s.enabled)) [] [] true]
  refine ⟨by simp, ?_, ?_, ?_⟩
  · intro s
    unfold probeOutcome
    cases hp : probe s with
    | ok code => simp
    | error e => simp
  · cases hb : ((services.filter (fun s => s.enabled)).filter probeCond).all
        (fun s => (probeOutcome probe s).is_healthy) with
    | true =>
      simp only [Bool.true_and, hb, if_pos]
      constructor
      · intro h
        cases h
      · rintro ⟨s, hs, hfalse⟩
        have := List.all_eq_true.mp hb s hs
        rw [hfalse] at this
        cases this
    | false =>
      simp only [Bool.true_and, hb, if_neg, Bool.false_eq_true, not_false_iff]
      constructor
      · intro _
        have hne : ¬ ((services.filter (fun s => s.enabled)).filter probeCond).all
            (fun s => (probeOutcome probe s).is_healthy) = true := by
          rw [hb]
          exact Bool.false_ne_true
        rw [List.all_eq_true] at hne
        push_neg at hne
        obtain ⟨s, hs, hsf⟩ := hne
        exact ⟨s, hs, Bool.not_eq_true _ ▸ hsf⟩
      · intro _
        trivial
  · cases hb : ((services.filter (fun s => s.enabled)).filter probeCond).all
        (fun s => (probeOutcome probe s).is_healthy) with
    | true =>
      simp only [Bool.true_and, hb, if_pos]
      constructor
      · intro _
        exact List.all_eq_true.mp hb
      · intro _
        trivial
    | false =>
      simp only [Bool.true_and, hb, if_neg, Bool.false_eq_true, not_false_iff]
      constructor
      · intro h
        cases h
      · intro hall
        have := List.all_eq_true.mpr hall
        rw [hb] at this
        cases this

/-- Witness for C4_health_checks: two enabled django services with health
endpoints, one answering 200 and one answering 500: both get HealthCheck
rows (the healthy one healthy, the other not) and the stage raises. -/
theorem C4_health_checks_witness :
    (_perform_health_checks
      [{ name := "web1", service_type := ServiceType.django, enabled := true,
         port := some 9000, health_check_endpoint := "/health/", last_health_check := none },
       { name := "web2", service_type := ServiceType.django, enabled := true,
         port := some 9001, health_check_endpoint := "/health/", last_health_check := none }]
      (fun s => if s.name = "web1" then Except.ok 200 else Except.ok 500) 5).2.2 =
      Except.error "Health checks failed"
    ∧ (_perform_health_checks
      [{ name := "web1", service_type := ServiceType.django, enabled := true,
         port := some 9000, health_check_endpoint := "/health/", last_health_check := none },
       { name := "web2", service_type := ServiceType.django, enabled := true,
         port := some 9001, health_check_endpoint := "/health/", last_health_check := none }]
      (fun s => if s.name = "web1" then Except.ok 200 else Except.ok 500) 5).1.length = 2 := by
  have h := C4_health_checks
    [{ name := "web1", service_type := ServiceType.django, enabled := true,
       port := some 9000, health_check_endpoint := "/health/", last_health_check := none },
     { name := "web2", service_type := ServiceType.django, enabled := true,
       port := some 9001, health_check_endpoint := "/health/", last_health_check := none }]
    (fun s => if s.name = "web1" then Except.ok 200 else Except.ok 500) 5
  refine ⟨h.2.2.1.mpr ?_, ?_⟩
  · refine ⟨{ name := "web2", service_type := ServiceType.django, enabled := true,
              port := some 9001, health_check_endpoint := "/health/",
              last_health_check := none }, by decide, by decide⟩
  · rw [h.1]
    decide

/-! ## Config loading (`DeploymentExecutor._load_deployment_config`, executor.py 198-236) -/

/-- A parsed YAML deployment config, modelled by its list of top-level keys
(what the validation loop inspects); an empty list models an empty/None parse
(falsy in Python, so `if not config` treats it as missing). -/
abbrev YConfig := List String

/-- The candidate file names, in the exact order tried by the source
(executor.py lines 206-211). -/
def config_files (environment_name : String) : List String :=
  ["deploy-" ++ environment_name ++ ".yaml",
   "deploy-" ++ environment_name ++ ".yml",
   "deploy.yaml",
   "deploy.yml"]

/-- The discovery loop (executor.py lines 213-220): the filesystem and YAML
parser are abstracted as the oracle `fs`, which returns the parsed config of
a candidate when the file exists and `none` when it does not; the first
existing candidate is opened, parsed and the loop breaks. -/
def findConfig (files : List String) (fs : String → Option YConfig) :
    Option (String × YConfig) :=
  match files with
  | [] => none
  | f :: rest =>
    match fs f with
    | some cfg => some (f, cfg)
    | none => findConfig rest fs

/-- `DeploymentExecutor._load_deployment_config` (executor.py lines 198-236):
discover the config file, raise if none was found or the parse is falsy,
raise if a required top-level key (`name`, then `services`) is missing, and
on success persist the parsed config onto the Environment, overwriting the
prior value.  Returns the config together with the Environment's new
`config` field. -/
def _load_deployment_config (environment_name : String) (fs : String → Option YConfig)
    (_priorEnvConfig : YConfig) : Except String (YConfig × YConfig) :=
  match findConfig (config_files environment_name) fs with
  | none => Except.error "No deployment configuration file found"
  | some (_, config) =>
    if config = [] then Except.error "No deployment configuration file found"
    else if "name" ∉ config then Except.error "Missing required field in config: name"
    else if "services" ∉ config then Except.error "Missing required field in config: services"
    else Except.ok (config, config)

theorem findConfig_eq_none (files : List String) (fs : String → Option YConfig) :
    findConfig files fs = none ↔ ∀ f ∈ files, fs f = none := by
  induction files with
  | nil => simp [findConfig]
  | cons f rest ih =>
    unfold findConfig
    cases hf : fs f with
    | some cfg => simp [hf]
    | none => simpa [hf] using ih

theorem findConfig_eq_some (files : List String) (fs : String → Option YConfig)
    (f : String) (cfg : YConfig) (h : findConfig files fs = some (f, cfg)) :
    fs f = some cfg ∧
    ∃ pre post, files = pre ++ f :: post ∧ ∀ g ∈ pre, fs g = none := by
  induction files with
  | nil => cases h
  | cons a rest ih =>
    unfold findConfig at h
    cases ha : fs a with
    | some cfg' =>
      rw [ha] at h
      cases h
      exact ⟨ha, [], rest, rfl, by intro g hg; cases hg⟩
    | none =>
      rw [ha] at h
      obtain ⟨h1, pre, post, h2, h3⟩ := ih h
      refine ⟨h1, a :: pre, post, by rw [h2]; rfl, ?_⟩
      intro g hg
      rcases List.mem_cons.mp hg with rfl | hg
      · exact ha
      · exact h3 g hg

/-- C6: the building stage searches exactly `deploy-<env>.yaml`,
`deploy-<env>.yml`, `deploy.yaml`, `deploy.yml` in that order and parses the
first file that exists; it raises a config error if and only if no candidate
exists or the parsed config lacks a required top-level key (`name` or
`services`, an empty/falsy parse lacking both); on success the parsed config
is persisted onto the Environment, overwriting the prior configuration. -/
theorem C6_config_discovery (en : String) (fs : String → Option YConfig) (prior : YConfig) :
    config_files en = ["deploy-" ++ en ++ ".yaml", "deploy-" ++ en ++ ".yml",
                       "deploy.yaml", "deploy.yml"]
    ∧ (∀ f cfg, findConfig (config_files en) fs = some (f, cfg) →
        fs f = some cfg ∧ ∃ pre post, config_files en = pre ++ f :: post ∧
          ∀ g ∈ pre, fs g = none)
    ∧ ((∃ e, _load_deployment_config en fs prior = Except.error e) ↔
        (∀ f ∈ config_files en, fs f = none) ∨
        (∃ f cfg, findConfig (config_files en) fs = some (f, cfg) ∧
          ("name" ∉ cfg ∨ "services" ∉ cfg)))
    ∧ (∀ cfg envCfg, _load_deployment_config en fs prior = Except.ok (cfg, envCfg) →
        envCfg = cfg ∧ "name" ∈ cfg ∧ "services" ∈ cfg) := by
  refine ⟨rfl, fun f cfg h => findConfig_eq_some _ fs f cfg h, ?_, ?_⟩
  · cases hfc : findConfig (config_files en) fs with
    | none =>
      unfold _load_deployment_config
      rw [hfc]
      constructor
      · intro _
        exact Or.inl ((findConfig_eq_none _ fs).mp hfc)
      · intro _
        exact ⟨_, rfl⟩
    | some pair =>
      obtain ⟨f, cfg⟩ := pair
      unfold _load_deployment_config
      rw [hfc]
      dsimp only
      by_cases h1 : cfg = []
      · rw [if_pos h1]
        constructor
        · intro _
          exact Or.inr ⟨f, cfg, rfl, Or.inl (by rw [h1]; simp)⟩
        · intro _
          exact ⟨_, rfl⟩
      · rw [if_neg h1]
        by_cases h2 : "name" ∈ cfg
        · rw [if_neg (by simpa using h2)]
          by_cases h3 : "services" ∈ cfg
          · rw [if_neg (by simpa using h3)]
            constructor
            · rintro ⟨e, he⟩
              cases he
            · rintro (hall | ⟨f', cfg', hfc', hmiss⟩)
              · obtain ⟨hfs, pre, post, heq, -⟩ := findConfig_eq_some _ fs f cfg hfc
                have hf_mem : f ∈ config_files en := by
                  rw [heq]
                  exact List.mem_append_right _ (List.mem_cons_self _ _)
                rw [hall f hf_mem] at hfs
                cases hfs
              · cases hfc'
                rcases hmiss with hm | hm
                · exact absurd h2 hm
                · exact absurd h3 hm
          · rw [if_pos h3]
            constructor
            · intro _
              exact Or.inr ⟨f, cfg, rfl, Or.inr h3⟩
            · intro _
              exact ⟨_, rfl⟩
        · rw [if_pos h2]
          constructor
          · intro _
            exact Or.inr ⟨f, cfg, rfl, Or.inl h2⟩
          · intro _
            exact ⟨_, rfl⟩
  · intro cfg envCfg h
    unfold _load_deployment_config at h
    cases hfc : findConfig (config_files en) fs with
    | none =>
      rw [hfc] at h
      cases h
    | some pair =>
      obtain ⟨f, c⟩ := pair
      rw [hfc] at h
      dsimp only at h
      by_cases h1 : c = []
      · rw [if_pos h1] at h
        cases h
      · rw [if_neg h1] at h
        by_cases h2 : "name" ∈ c
        · rw [if_neg (by simpa using h2)] at h
          by_cases h3 : "services" ∈ c
          · rw [if_neg (by simpa using h3)] at h
            have hp : (c, c) = (cfg, envCfg) := by injection h
            cases hp
            exact ⟨rfl, h2, h3⟩
          · rw [if_pos h3] at h
            cases h
        · rw [if_pos h2] at h
          cases h

/-- Witness for C6_config_discovery: a repository with only `deploy.yaml`
(containing the required keys) for environment `qa`: loading succeeds, the
environment-specific candidates were absent, and the persisted Environment
config equals the parsed one. -/
theorem C6_config_discovery_witness :
    _load_deployment_config "qa"
      (fun n => if n = "deploy.yaml" then some ["name", "services"] else none)
      ["old"] = Except.ok (["name", "services"], ["name", "services"])
    ∧ "name" ∈ (["name", "services"] : YConfig)
    ∧ "services" ∈ (["name", "services"] : YConfig) := by
  have h := (C6_config_discovery "qa"
      (fun n => if n = "deploy.yaml" then some ["name", "services"] else none)
      ["old"]).2.2.2 ["name", "services"] ["name", "services"] (by rfl)
  exact ⟨by rfl, h.2.1, h.2.2⟩

/-! ## Environment variable assembly (`_prepare_environment_variables`, executor.py 287-314) -/

/-- A Python dict of string keys and values, as an insertion-ordered
association list whose unique-key invariant is maintained by `dinsert`. -/
abbrev EnvMap := List (String × String)

def hasKey : EnvMap → String → Bool
  | [], _ => false
  | p :: t, k => if p.1 = k then true else hasKey t k

def lookupE : EnvMap → String → Option String
  | [], _ => none
  | p :: t, k => if p.1 = k then some p.2 else lookupE t k

/-- `d[key] = value` on a Python dict: overwrite in place when the key is
present, append otherwise. -/
def dinsert (m : EnvMap) (k v : String) : EnvMap :=
  if hasKey m k then m.map (fun p => if p.1 = k then (k, v) else p)
  else m ++ [(k, v)]

theorem lookupE_map_overwrite_self (m : EnvMap) (k v : String) (h : hasKey m k = true) :
    lookupE (m.map (fun p => if p.1 = k then (k, v) else p)) k = some v := by
  induction m with
  | nil => cases h
  | cons p t ih =>
    by_cases hp : p.1 = k
    · simp [lookupE, hp]
    · unfold hasKey at h
      rw [if_neg hp] at h
      simp only [List.map_cons, if_neg hp]
      unfold lookupE
      rw [if_neg hp]
      exact ih h

theorem lookupE_append_single_self (m : EnvMap) (k v : String) (h : hasKey m k = false) :
    lookupE (m ++ [(k, v)]) k = some v := by
  induction m with
  | nil => simp [lookupE]
  | cons p t ih =>
    unfold hasKey at h
    by_cases hp : p.1 = k
    · rw [if_pos hp] at h
      cases h
    · rw [if_neg hp] at h
      rw [List.cons_append]
      unfold lookupE
      rw [if_neg hp]
      exact ih h

theorem lookupE_dinsert_self (m : EnvMap) (k v : String) :
    lookupE (dinsert m k v) k = some v := by
  unfold dinsert
  cases h : hasKey m k with
  | true => simpa using lookupE_map_overwrite_self m k v h
  | false => simpa using lookupE_append_single_self m k v h

theorem lookupE_map_overwrite_ne (m : EnvMap) (k v k' : String) (h : k ≠ k') :
    lookupE (m.map (fun p => if p.1 = k then (k, v) else p)) k' = lookupE m k' := by
  induction m with
  | nil => rfl
  | cons p t ih =>
    by_cases hp : p.1 = k
    · simp only [List.map_cons, if_pos hp]
      unfold lookupE
      rw [if_neg h, if_neg (by rw [hp]; exact h)]
      exact ih
    · simp only [List.map_cons, if_neg hp]
      unfold lookupE
      by_cases hp' : p.1 = k'
      · rw [if_pos hp', if_pos hp']
      · rw [if_neg hp', if_neg hp']
        exact ih

theorem lookupE_append_single_ne (m : EnvMap) (k v k' : String) (h : k ≠ k') :
    lookupE (m ++ [(k, v)]) k' = lookupE m k' := by
  induction m with
  | nil => simp [lookupE, h]
  | cons p t ih =>
    rw [List.cons_append]
    unfold lookupE
    by_cases hp : p.1 = k'
    · rw [if_pos hp, if_pos hp]
    · rw [if_neg hp, if_neg hp]
      exact ih

theorem lookupE_dinsert_ne (m : EnvMap) (k v k' : String) (h : k ≠ k') :
    lookupE (dinsert m k v) k' = lookupE m k' := by
  unfold dinsert
  cases hk : hasKey m k with
  | true => simpa using lookupE_map_overwrite_ne m k v k' h
  | false => simpa using lookupE_append_single_ne m k v k' h

/-- Python `s.startswith(pre)` over the character sequence (kernel-computable
counterpart of `String.startsWith`). -/
def strStartsWith (s pre : String) : Bool := pre.data.isPrefixOf s.data

/-- Python `s.endswith(suf)` over the character sequence. -/
def strEndsWith (s suf : String) : Bool := suf.data.isSuffixOf s.data

/-- Python `s[n:]`. -/
def strDrop (s : String) (n : Nat) : String := String.mk (s.data.drop n)

/-- Python `s[:-n]`. -/
def strDropRight (s : String) (n : Nat) : String := String.mk (s.data.take (s.data.length - n))

/-- The `${SECRET_<key>}` placeholder resolution inside the config phase
(executor.py lines 299-305): a string value of the exact form `${...}` whose
inner text starts with `SECRET_` is replaced by the Environment secret named
by the rest of the inner text when that secret exists; any other value is
passed through unchanged. -/
def resolveSecretPlaceholder (value : String) (secrets : EnvMap) : String :=
  if strStartsWith value "$\x7b" && strEndsWith value "\x7d" then
    let secret_key := strDropRight (strDrop value 2) 1
    if strStartsWith secret_key "SECRET_" then
      match lookupE secrets (strDrop secret_key 7) with
      | some s => s
      | none => value
    else value
  else value

/-- `DeploymentExecutor._prepare_environment_variables` (executor.py lines
287-314): write the fixed system values, then the config `env_vars` entries
with placeholder resolution, then the Environment's secrets except keys with
the internal `_` prefix; each write overwrites any earlier value of the same
key, giving the claimed increasing precedence. -/
def _prepare_environment_variables (environment_name project_name version : String)
    (cfg_env_vars secrets : EnvMap) : EnvMap :=
  let e0 := dinsert (dinsert (dinsert [] "DEPLOYMENT_VERSION" version)
    "DEPLOYMENT_ENV" environment_name) "PROJECT_NAME" project_name
  let e1 := cfg_env_vars.foldl
    (fun acc p => dinsert acc p.1 (resolveSecretPlaceholder p.2 secrets)) e0
  secrets.foldl (fun acc p => if strStartsWith p.1 "_" then acc else dinsert acc p.1 p.2) e1

theorem foldl_dinsert_lookup_not_key (F : String × String → String) (l : EnvMap)
    (acc : EnvMap) (k : String) (h : ∀ p ∈ l, p.1 ≠ k) :
    lookupE (l.foldl (fun acc p => dinsert acc p.1 (F p)) acc) k = lookupE acc k := by
  induction l generalizing acc with
  | nil => rfl
  | cons p t ih =>
    rw [List.foldl_cons, ih _ (fun q hq => h q (List.mem_cons_of_mem p hq))]
    exact lookupE_dinsert_ne acc p.1 (F p) k (h p (List.mem_cons_self p t))

theorem foldl_dinsert_lookup_mem (F : String × String → String) (l : EnvMap)
    (acc : EnvMap) (k v : String) (hmem : (k, v) ∈ l)
    (hnd : (l.map Prod.fst).Nodup) :
    lookupE (l.foldl (fun acc p => dinsert acc p.1 (F p)) acc) k = some (F (k, v)) := by
  induction l generalizing acc with
  | nil => cases hmem
  | cons p t ih =>
    rw [List.map_cons, List.nodup_cons] at hnd
    rcases List.mem_cons.mp hmem with rfl | hmem'
    · rw [List.foldl_cons]
      rw [foldl_dinsert_lookup_not_key F t _ k
        (fun q hq hqk => hnd.1 (by
          have hm : q.1 ∈ t.map Prod.fst := List.mem_map_of_mem Prod.fst hq
          rw [hqk] at hm
          exact hm))]
      exact lookupE_dinsert_self acc k (F (k, v))
    · rw [List.foldl_cons]
      exact ih _ hmem' hnd.2

theorem foldl_secrets_lookup_internal (l : EnvMap) (acc : EnvMap) (k : String)
    (h : ∀ p ∈ l, p.1 = k → strStartsWith p.1 "_") :
    lookupE (l.foldl
      (fun acc p => if strStartsWith p.1 "_" then acc else dinsert acc p.1 p.2) acc) k =
      lookupE acc k := by
  induction l generalizing acc with
  | nil => rfl
  | cons p t ih =>
    rw [List.foldl_cons, ih _ (fun q hq => h q (List.mem_cons_of_mem p hq))]
    by_cases hi : strStartsWith p.1 "_"
    · rw [if_pos hi]
    · rw [if_neg hi]
      refine lookupE_dinsert_ne acc p.1 p.2 k ?_
      intro he
      exact absurd (h p (List.mem_cons_self p t) he) (by simp [hi])

theorem foldl_secrets_lookup_mem (l : EnvMap) (acc : EnvMap) (k v : String)
    (hmem : (k, v) ∈ l) (hnd : (l.map Prod.fst).Nodup)
    (hint : ¬ strStartsWith k "_") :
    lookupE (l.foldl
      (fun acc p => if strStartsWith p.1 "_" then acc else dinsert acc p.1 p.2) acc) k =
      some v := by
  induction l generalizing acc with
  | nil => cases hmem
  | cons p t ih =>
    rw [List.map_cons, List.nodup_cons] at hnd
    rcases List.mem_cons.mp hmem with rfl | hmem'
    · rw [List.foldl_cons, if_neg hint]
      rw [foldl_secrets_lookup_internal t _ k
        (fun q hq hqk => absurd (by
          have hm : q.1 ∈ t.map Prod.fst := List.mem_map_of_mem Prod.fst hq
          rw [hqk] at hm
          exact hm) hnd.1)]
      exact lookupE_dinsert_self acc k v
    · rw [List.foldl_cons]
      cases hi : strStartsWith p.1 "_" with
      | true => exact ih _ hmem' hnd.2
      | false => exact ih _ hmem' hnd.2

/-! ## Claim C7 -/

/-- C7: the assembled environment variables equal the merge, in increasing
precedence, of the fixed system values (version, environment name, project
name) < the config `env_vars` entries (with `${SECRET_<key>}` values resolved
against the Environment's secrets) < the non-internal (no `_` prefix) secret
entries: a non-internal secret key always reads as its secret value; a config
key not overridden by a non-internal secret reads as its (placeholder-
resolved) config value; a system key defined by no other source reads as its
fixed value; any other key is absent. -/
theorem C7_env_vars (environment_name project_name version : String)
    (cfg_env_vars secrets : EnvMap)
    (hnds : (secrets.map Prod.fst).Nodup)
    (hndc : (cfg_env_vars.map Prod.fst).Nodup) :
    (∀ k v, (k, v) ∈ secrets → ¬ strStartsWith k "_" →
      lookupE (_prepare_environment_variables environment_name project_name version
        cfg_env_vars secrets) k = some v)
    ∧ (∀ k v, (k, v) ∈ cfg_env_vars →
        (∀ p ∈ secrets, p.1 = k → strStartsWith p.1 "_") →
        lookupE (_prepare_environment_variables environment_name project_name version
          cfg_env_vars secrets) k = some (resolveSecretPlaceholder v secrets))
    ∧ ((∀ p ∈ cfg_env_vars, p.1 ≠ "DEPLOYMENT_VERSION") →
        (∀ p ∈ secrets, p.1 = "DEPLOYMENT_VERSION" → strStartsWith p.1 "_") →
        lookupE (_prepare_environment_variables environment_name project_name version
          cfg_env_vars secrets) "DEPLOYMENT_VERSION" = some version)
    ∧ ((∀ p ∈ cfg_env_vars, p.1 ≠ "DEPLOYMENT_ENV") →
        (∀ p ∈ secrets, p.1 = "DEPLOYMENT_ENV" → strStartsWith p.1 "_") →
        lookupE (_prepare_environment_variables environment_name project_name version
          cfg_env_vars secrets) "DEPLOYMENT_ENV" = some environment_name)
    ∧ ((∀ p ∈ cfg_env_vars, p.1 ≠ "PROJECT_NAME") →
        (∀ p ∈ secrets, p.1 = "PROJECT_NAME" → strStartsWith p.1 "_") →
        lookupE (_prepare_environment_variables environment_name project_name version
          cfg_env_vars secrets) "PROJECT_NAME" = some project_name)
    ∧ (∀ k, k ∉ ["DEPLOYMENT_VERSION", "DEPLOYMENT_ENV", "PROJECT_NAME"] →
        (∀ p ∈ cfg_env_vars, p.1 ≠ k) →
        (∀ p ∈ secrets, p.1 ≠ k) →
        lookupE (_prepare_environment_variables environment_name project_name version
          cfg_env_vars secrets) k = none) := by
  have h0 : _prepare_environment_variables environment_name project_name version
      cfg_env_vars secrets =
      secrets.foldl (fun acc p => if strStartsWith p.1 "_" then acc else dinsert acc p.1 p.2)
        (cfg_env_vars.foldl
          (fun acc p => dinsert acc p.1 (resolveSecretPlaceholder p.2 secrets))
          (dinsert (dinsert (dinsert [] "DEPLOYMENT_VERSION" version)
            "DEPLOYMENT_ENV" environment_name) "PROJECT_NAME" project_name)) := rfl
  refine ⟨?_, ?_, ?_, ?_, ?_, ?_⟩
  · intro k v hmem hint
    rw [h0]
    exact foldl_secrets_lookup_mem secrets _ k v hmem hnds hint
  · intro k v hmem hs
    rw [h0, foldl_secrets_lookup_internal secrets _ k hs]
    exact foldl_dinsert_lookup_mem
      (fun p => resolveSecretPlaceholder p.2 secrets) cfg_env_vars _ k v hmem hndc
  · intro hc hs
    rw [h0, foldl_secrets_lookup_internal secrets _ _ hs]
    exact (foldl_dinsert_lookup_not_key
      (fun p => resolveSecretPlaceholder p.2 secrets) cfg_env_vars _ _ hc).trans rfl
  · intro hc hs
    rw [h0, foldl_secrets_lookup_internal secrets _ _ hs]
    exact (foldl_dinsert_lookup_not_key
      (fun p => resolveSecretPlaceholder p.2 secrets) cfg_env_vars _ _ hc).trans rfl
  · intro hc hs
    rw [h0, foldl_secrets_lookup_internal secrets _ _ hs]
    exact (foldl_dinsert_lookup_not_key
      (fun p => resolveSecretPlaceholder p.2 secrets) cfg_env_vars _ _ hc).trans rfl
  · intro k hk hc hs
    simp only [List.mem_cons, List.not_mem_nil, or_false, not_or] at hk
    rw [h0, foldl_secrets_lookup_internal secrets _ k
      (fun p hp hpk => absurd hpk (hs p hp))]
    rw [foldl_dinsert_lookup_not_key
      (fun p => resolveSecretPlaceholder p.2 secrets) cfg_env_vars _ k hc]
    show lookupE [("DEPLOYMENT_VERSION", version), ("DEPLOYMENT_ENV", environment_name),
      ("PROJECT_NAME", project_name)] k = none
    simp only [lookupE]
    rw [if_neg fun he => hk.1 he.symm, if_neg fun he => hk.2.1 he.symm,
      if_neg fun he => hk.2.2 he.symm]

/-- Witness for C7_env_vars: with config vars A (also a secret) and DB_URL
(a `${SECRET_DB}` placeholder), and secrets A, DB and internal `_INTERNAL`:
the secret value wins for A, the placeholder resolves to the DB secret for
DB_URL, and the untouched system key PROJECT_NAME keeps its fixed value. -/
theorem C7_env_vars_witness :
    lookupE (_prepare_environment_variables "qa" "app1" "v1"
      [("A", "from-config"), ("DB_URL", "${SECRET_DB}")]
      [("A", "from-secret"), ("DB", "postgres"), ("_INTERNAL", "x")]) "A" =
      some "from-secret"
    ∧ lookupE (_prepare_environment_variables "qa" "app1" "v1"
      [("A", "from-config"), ("DB_URL", "${SECRET_DB}")]
      [("A", "from-secret"), ("DB", "postgres"), ("_INTERNAL", "x")]) "DB_URL" =
      some "postgres"
    ∧ lookupE (_prepare_environment_variables "qa" "app1" "v1"
      [("A", "from-config"), ("DB_URL", "${SECRET_DB}")]
      [("A", "from-secret"), ("DB", "postgres"), ("_INTERNAL", "x")]) "PROJECT_NAME" =
      some "app1" := by
  have h := C7_env_vars "qa" "app1" "v1"
    [("A", "from-config"), ("DB_URL", "${SECRET_DB}")]
    [("A", "from-secret"), ("DB", "postgres"), ("_INTERNAL", "x")]
    (by decide) (by decide)
  refine ⟨h.1 "A" "from-secret" (by decide) (by decide), ?_, ?_⟩
  · have hb := h.2.1 "DB_URL" "${SECRET_DB}" (by decide) (by decide)
    rw [hb]
    decide
  · exact h.2.2.2.2.1 (by decide) (by decide)

/-! ## Async task (`process_deployment`, deployer/tasks.py 13-63) -/

/-- The methods defined on `DeploymentExecutor` — every `def` in the class
body of executor.py.  `_execute_deployment_steps` is not among them. -/
def executorMethods : List String :=
  ["__init__", "deploy", "rollback", "_generate_version", "_log",
   "_clone_or_update_repo", "_checkout_commit", "_load_deployment_config",
   "_create_release_directory", "_setup_virtual_environment",
   "_install_dependencies", "_prepare_environment_variables",
   "_run_pre_deploy_hooks", "_run_post_deploy_hooks", "_run_hook",
   "_update_supervisor_configs", "_update_nginx_config", "_switch_symlink",
   "_switch_symlink_to_release", "_reload_services", "_perform_health_checks",
   "_cleanup_old_releases", "_handle_deployment_failure"]

/-- Python attribute lookup on a `DeploymentExecutor` instance: accessing a
method the class does not define raises `AttributeError` before any call
happens. -/
def invokeExecutorMethod (name : String) : Except String Unit :=
  if name ∈ executorMethods then Except.ok ()
  else Except.error ("'DeploymentExecutor' object has no attribute '" ++ name ++ "'")

/-- `process_deployment` (tasks.py lines 13-63) acting on one deployment row:
skip unless the row is still `pending`; mark it `deploying`; call
`executor._execute_deployment_steps(deployment)`; on success mark `active`
and demote others, on any exception mark `failed` with the error text and a
completion timestamp and re-raise. -/
def process_deployment (d : Deployment) (now : Nat) : Deployment × Except String String :=
  if d.status ≠ Status.pending then
    (d, Except.ok "already processed")
  else
    let d1 := { d with status := Status.deploying }
    match invokeExecutorMethod "_execute_deployment_steps" with
    | Except.ok _ =>
      ({ d1 with status := Status.active, completedAt := some now },
       Except.ok "completed successfully")
    | Except.error e =>
      ({ d1 with status := Status.failed, errorMessage := e, completedAt := some now },
       Except.error e)

/-- `Deployment.save` (core/models.py lines 198-215): the condition under
which saving a row schedules the async `process_deployment` task. -/
def save_schedules_processing (is_new : Bool) (old_status : Option Status)
    (status : Status) : Prop :=
  (is_new = true ∧ status = Status.pending) ∨
  (old_status ≠ some Status.pending ∧ status = Status.pending)

/-! ## Claim C9 -/

/-- C9: `_execute_deployment_steps` is not among the methods defined by
`DeploymentExecutor`, so for every Deployment that is still `pending` when
`process_deployment` picks it up, the attribute access raises, the failure
branch runs, and the task terminates with the Deployment `failed` (error
message and completion timestamp set) and never `active`; and a Deployment
created in status `pending` always schedules this task via the `save`
override, so the asynchronous path can never produce a successful
deployment. -/
theorem C9_async_task_always_fails (d : Deployment) (now : Nat)
    (h : d.status = Status.pending) :
    "_execute_deployment_steps" ∉ executorMethods
    ∧ (process_deployment d now).1.status = Status.failed
    ∧ (process_deployment d now).1.status ≠ Status.active
    ∧ (process_deployment d now).1.completedAt = some now
    ∧ (process_deployment d now).1.errorMessage ≠ ""
    ∧ (∃ e, (process_deployment d now).2 = Except.error e)
    ∧ save_schedules_processing true none Status.pending := by
  have hinv : invokeExecutorMethod "_execute_deployment_steps" =
      Except.error
        "'DeploymentExecutor' object has no attribute '_execute_deployment_steps'" := by
    unfold invokeExecutorMethod
    rw [if_neg (by decide)]
    rfl
  have hp : process_deployment d now =
      ({ d with status := Status.failed,
                errorMessage :=
                  "'DeploymentExecutor' object has no attribute '_execute_deployment_steps'",
                completedAt := some now },
       Except.error
         "'DeploymentExecutor' object has no attribute '_execute_deployment_steps'") := by
    unfold process_deployment
    rw [if_neg (show ¬ (d.status ≠ Status.pending) from fun hne => hne h), hinv]
  rw [hp]
  refine ⟨by decide, rfl, ?_, rfl, ?_, ⟨_, rfl⟩, Or.inl ⟨rfl, rfl⟩⟩
  · show ¬ (Status.failed = Status.active)
    decide
  · show ¬ (("'DeploymentExecutor' object has no attribute '_execute_deployment_steps'" :
      String) = "")
    decide

/-- Witness for C9_async_task_always_fails: a concrete pending deployment
picked up by the task ends `failed` and not `active`. -/
theorem C9_async_task_always_fails_witness :
    ({ rid := 1, deployedAt := 0, status := Status.pending, completedAt := none,
       errorMessage := "", rollbackFrom := none } : Deployment).status = Status.pending
    ∧ (process_deployment
        { rid := 1, deployedAt := 0, status := Status.pending, completedAt := none,
          errorMessage := "", rollbackFrom := none } 7).1.status = Status.failed
    ∧ (process_deployment
        { rid := 1, deployedAt := 0, status := Status.pending, completedAt := none,
          errorMessage := "", rollbackFrom := none } 7).1.status ≠ Status.active := by
  have h := C9_async_task_always_fails
    { rid := 1, deployedAt := 0, status := Status.pending, completedAt := none,
      errorMessage := "", rollbackFrom := none } 7 (by decide)
  exact ⟨by decide, h.2.1, h.2.2.1⟩

/-! ## Encrypted secrets field (`EncryptedJSONField`, core/models.py 46-76) -/

/-- A decrypted and parsed secrets dict. -/
abbrev JDict := List (String × String)

/-- A Python value arriving at the field converters: None, a raw string from
the database, or an already-converted dict. -/
inductive PyValue where
  | null
  | str (s : String)
  | dict (d : JDict)
  deriving DecidableEq

/-- `isinstance(value, str) and len(value) > 20 and '=' in value`
(core/models.py lines 51 and 68): the heuristic for "looks like encrypted
data" (the string part of the isinstance check is captured by the
`PyValue.str` case of the callers). -/
def looksEncrypted (v : String) : Bool :=
  decide (v.data.length > 20) && v.data.contains '='

/-- The decrypt-then-JSON-parse pipeline inside the `try` blocks, with
`Fernet.decrypt` and `json.loads` abstracted as oracles that either return
a value or raise (a wrong, missing or regenerated key makes `decrypt`
raise on every stored token). -/
def decodePipeline (decrypt : String → Except String String)
    (jparse : String → Except String JDict) (v : String) : Except String JDict :=
  if looksEncrypted v then
    match decrypt v with
    | Except.ok plain => jparse plain
    | Except.error e => Except.error e
  else jparse v

/-- `EncryptedJSONField.from_db_value` (core/models.py lines 46-59): None
passes through, a non-string passes through, and a string goes through the
guarded pipeline with ANY failure caught and replaced by the empty dict. -/
def from_db_value (decrypt : String → Except String String)
    (jparse : String → Except String JDict) (value : PyValue) : PyValue :=
  match value with
  | PyValue.null => PyValue.null
  | PyValue.dict d => PyValue.dict d
  | PyValue.str v =>
    match decodePipeline decrypt jparse v with
    | Except.ok d => PyValue.dict d
    | Except.error _ => PyValue.dict []

/-- `EncryptedJSONField.to_python` (core/models.py lines 61-76): dicts and
None pass through; a string goes through the same guarded pipeline with the
empty-dict fallback. -/
def to_python (decrypt : String → Except String String)
    (jparse : String → Except String JDict) (value : PyValue) : PyValue :=
  match value with
  | PyValue.dict d => PyValue.dict d
  | PyValue.null => PyValue.null
  | PyValue.str v =>
    match decodePipeline decrypt jparse v with
    | Except.ok d => PyValue.dict d
    | Except.error _ => PyValue.dict []

/-! ## Claim C10 -/

/-- C10: reading an Environment's encrypted secrets never raises: for every
stored string value whose decryption or JSON parsing fails for any reason,
both `from_db_value` and `to_python` return the empty dict instead of
propagating the error; and on every input the two converters agree and
always produce a value (the exception is always caught). -/
theorem C10_secrets_never_raise (decrypt : String → Except String String)
    (jparse : String → Except String JDict) (v : String) (e : String)
    (h : decodePipeline decrypt jparse v = Except.error e) :
    from_db_value decrypt jparse (PyValue.str v) = PyValue.dict []
    ∧ to_python decrypt jparse (PyValue.str v) = PyValue.dict []
    ∧ (∀ value : PyValue, ∃ w : PyValue,
        from_db_value decrypt jparse value = w ∧ to_python decrypt jparse value = w) := by
  refine ⟨?_, ?_, ?_⟩
  · unfold from_db_value
    dsimp only
    rw [h]
  · unfold to_python
    dsimp only
    rw [h]
  · intro value
    cases value with
    | null => exact ⟨PyValue.null, rfl, rfl⟩
    | dict d => exact ⟨PyValue.dict d, rfl, rfl⟩
    | str s =>
      cases hp : decodePipeline decrypt jparse s with
      | ok d =>
        refine ⟨PyValue.dict d, ?_, ?_⟩
        · unfold from_db_value
          dsimp only
          rw [hp]
        · unfold to_python
          dsimp only
          rw [hp]
      | error e' =>
        refine ⟨PyValue.dict [], ?_, ?_⟩
        · unfold from_db_value
          dsimp only
          rw [hp]
        · unfold to_python
          dsimp only
          rw [hp]

/-- Witness for C10_secrets_never_raise: a 22-character stored token that
looks encrypted, with a decrypt oracle that always raises (as with a wrong
or regenerated key): the pipeline fails and both converters read the secrets
as the empty dict. -/
theorem C10_secrets_never_raise_witness :
    decodePipeline (fun _ => Except.error "InvalidToken")
      (fun _ => Except.error "not json") "AAAAAAAAAAAAAAAAAAAAA=" =
      Except.error "InvalidToken"
    ∧ from_db_value (fun _ => Except.error "InvalidToken")
      (fun _ => Except.error "not json") (PyValue.str "AAAAAAAAAAAAAAAAAAAAA=") =
      PyValue.dict []
    ∧ to_python (fun _ => Except.error "InvalidToken")
      (fun _ => Except.error "not json") (PyValue.str "AAAAAAAAAAAAAAAAAAAAA=") =
      PyValue.dict [] := by
  have h := C10_secrets_never_raise (fun _ => Except.error "InvalidToken")
    (fun _ => Except.error "not json") "AAAAAAAAAAAAAAAAAAAAA=" "InvalidToken" (by rfl)
  exact ⟨by rfl, h.1, h.2.1⟩
